import Mathlib

/-!
Shallow embedding of the three-tier agent orchestration core
(`src/agents/orchestrator.ts`, `src/agents/types.ts`, the chat agent in
`src/agents/chat-agent.ts`, and the invoker in `src/claude/invoker.ts`).

Asynchronous plumbing (timers, abort signals, the child process) is modelled
by explicit oracles: the outcome of one monitored worker execution is a
function from the (augmented) `WorkerTask` and the worker number to a
`WorkerResult`, and the two orchestrator-level assistant invocations are
`Except`-valued inputs (an `Except.error` models a rejected promise).
JSON parsing (a JavaScript builtin) is likewise an oracle parameter.
Costs (`costUsd`, JavaScript numbers) are modelled as exact integers (think
fixed-point units): the claims under study only concern which costs are
summed, never float rounding, so any additive monoid is faithful.
-/

/-- Constant `MAX_WORKERS` from orchestrator.ts. -/
def MAX_WORKERS : Nat := 10

/-- Constant `MAX_RESULT_CHARS` from orchestrator.ts. -/
def MAX_RESULT_CHARS : Nat := 8000

/-- Constant `WORKER_TIMEOUT_MS` from orchestrator.ts. -/
def WORKER_TIMEOUT_MS : Nat := 300000

/-- Constant `ORCHESTRATION_TIMEOUT_MS` from orchestrator.ts. -/
def ORCHESTRATION_TIMEOUT_MS : Nat := 3600000

/-- Decidable check that the character list `pat` occurs as a contiguous
sublist of `hay`; JavaScript `hay.includes(pat)` on strings. -/
def charsContain (hay pat : List Char) : Bool :=
  match hay with
  | [] => pat.isEmpty
  | _ :: t => pat.isPrefixOf hay || charsContain t pat

/-- JavaScript `s.includes(pat)` (case-sensitive substring test). -/
def strIncludes (s pat : String) : Bool :=
  charsContain s.data pat.data

/-- Character-wise lowercasing (JavaScript `toLowerCase` restricted to the
ASCII range, which covers every transient pattern). -/
def listToLower (l : List Char) : List Char :=
  l.map Char.toLower

/-- JavaScript `s.trim()`: leading and trailing whitespace removed. -/
def trimChars (l : List Char) : List Char :=
  ((l.dropWhile Char.isWhitespace).reverse.dropWhile Char.isWhitespace).reverse

/-- String trim on the char-list representation. -/
def strTrim (s : String) : String :=
  String.mk (trimChars s.data)

/-- First `n` characters of a string (JavaScript `s.slice(0, n)`). -/
def strTake (s : String) (n : Nat) : String :=
  String.mk (s.data.take n)

/-- The `TRANSIENT_ERROR_PATTERNS` array from orchestrator.ts. -/
def TRANSIENT_ERROR_PATTERNS : List String :=
  ["rate limit", "429", "timed out", "timeout", "ECONNRESET", "ECONNREFUSED",
   "socket hang up", "network error", "overloaded", "503", "502"]

/-- `isTransientError` from orchestrator.ts: case-insensitive substring match
of any transient pattern against the message. -/
def isTransientError (errorMsg : String) : Bool :=
  TRANSIENT_ERROR_PATTERNS.any fun p =>
    charsContain (listToLower errorMsg.data) (listToLower p.data)

/-- `WorkerTask` from types.ts (`dependsOn?` is optional). -/
structure WorkerTask where
  id : String
  description : String
  prompt : String
  dependsOn : Option (List String) := none
deriving DecidableEq

/-- JavaScript `(w.dependsOn || [])`. -/
def depsOf (w : WorkerTask) : List String :=
  w.dependsOn.getD []

/-- `WorkerResult` from types.ts. -/
structure WorkerResult where
  taskId : String
  success : Bool
  result : String
  costUsd : Option ℤ := none
  duration : Option Nat := none
deriving DecidableEq

/-- `OrchestratorPlan` from types.ts (the constant `type:"plan"` tag is
implicit). -/
structure OrchestratorPlan where
  summary : String
  workers : List WorkerTask
  sequential : Bool
deriving DecidableEq

/-- `OrchestratorSummary` from types.ts (`needsRestart` is absent in every
return site of `Orchestrator.execute` and is omitted). -/
structure OrchestratorSummary where
  overallSuccess : Bool
  summary : String
  workerResults : List WorkerResult
  totalCostUsd : ℤ
deriving DecidableEq

/-- The part of `ClaudeResult` (invoker.ts) the orchestrator consumes. -/
structure ClaudeRes where
  result : String
  costUsd : Option ℤ := none
  isError : Bool := false
deriving DecidableEq

/-- Environment of one orchestration run.  `planCall` and `summaryCall` are
the outcomes of the two `invokeClaude` invocations in `Orchestrator.execute`
(`Except.error` models a rejected promise).  `parsePlanFn` is the oracle for
`parsePlan` (whose interesting work is JavaScript `JSON.parse`).  `exec` is
the oracle for one `executeWithMonitoring` run on an (augmented) task: the
monitored worker execution always resolves with a `WorkerResult`. -/
structure OrchEnv where
  planCall : Except String ClaudeRes
  parsePlanFn : String → Except String OrchestratorPlan
  exec : WorkerTask → Nat → WorkerResult
  summaryCall : Except String ClaudeRes

/-- `formatDuration` from orchestrator.ts. -/
def formatDuration (ms : Nat) : String :=
  let seconds := ms / 1000
  if seconds < 60 then toString seconds ++ "s"
  else
    let minutes := seconds / 60
    let remainingSec := seconds % 60
    if minutes < 60 then
      if remainingSec > 0 then toString minutes ++ "m " ++ toString remainingSec ++ "s"
      else toString minutes ++ "m"
    else
      let hours := minutes / 60
      let remainingMin := minutes % 60
      toString hours ++ "h " ++ toString remainingMin ++ "m"

/-- Truncation of a prior result inside the context block
(orchestrator.ts, `buildWorkerContextPrefix`). -/
def truncateResult (s : String) : String :=
  if s.length > MAX_RESULT_CHARS then
    (strTake s MAX_RESULT_CHARS) ++ "\n... (truncated, " ++
      toString (s.length - MAX_RESULT_CHARS) ++ " chars omitted)"
  else s

/-- The `buildWorkerContextPrefix` helper of `Orchestrator.execute`
(renamed here): plan context, worker position, and the given prior results
each labelled SUCCESS/FAILED and truncated, joined with newlines. -/
def buildWorkerContextBlock (planContext : String) (workerNumber total : Nat)
    (priorResults : List WorkerResult) : String :=
  let base := [planContext,
    "\nYou are Worker #" ++ toString workerNumber ++ " of " ++ toString total ++ "."]
  let parts :=
    if priorResults.isEmpty then base
    else
      base ++ ["\n## Results from prior workers:"] ++
      (priorResults.map fun pr =>
        let statusLabel := if pr.success then "SUCCESS" else "FAILED"
        "\n--- " ++ pr.taskId ++ " [" ++ statusLabel ++ "] ---" ++ "\n" ++
          truncateResult pr.result) ++
      ["\nUse the above results to inform your work. Do not repeat work already done."]
  String.intercalate "\n" parts

/-- The `planContextForWorkers` string of `Orchestrator.execute`. -/
def planContextForWorkers (userTask : String) (plan : OrchestratorPlan) : String :=
  let modeLabel := if plan.sequential then "sequential" else "parallel"
  String.intercalate "\n"
    (["## Overall Plan Context",
      "Overall goal: " ++ userTask,
      "Plan summary: " ++ plan.summary,
      "Total workers: " ++ toString plan.workers.length ++ " (" ++ modeLabel ++ " execution)",
      "",
      "### All tasks in this plan:"] ++
     plan.workers.enum.map fun p =>
       toString (p.1 + 1) ++ ". [" ++ p.2.id ++ "] " ++ p.2.description)

/-- Prompt augmentation applied to every scheduled worker: the context block
is prefixed to the task's own prompt. -/
def augmentTask (contextBlock : String) (w : WorkerTask) : WorkerTask :=
  { w with prompt := contextBlock ++ "\n\n---\n\n## Your specific task:\n" ++ w.prompt }

/-- `executeWithRetry` from orchestrator.ts, instrumented with the list of
executed attempts (task passed to the monitored execution, paired with its
result).  A failed result whose text matches a transient pattern is re-run
exactly once under the task id `<id>-retry`; the retry result replaces the
first. -/
def executeWithRetry (env : OrchEnv) (task : WorkerTask) (workerNumber : Nat) :
    WorkerResult × List (WorkerTask × WorkerResult) :=
  let r := env.exec task workerNumber
  if !r.success && isTransientError r.result then
    let retryTask : WorkerTask := { task with id := task.id ++ "-retry" }
    let r2 := env.exec retryTask workerNumber
    (r2, [(task, r), (retryTask, r2)])
  else
    (r, [(task, r)])

/-- Sequential execution loop of `Orchestrator.execute` (the
`plan.sequential` branch), with the orchestration signal not aborted.
Returns the processed `(plan worker, final result)` pairs in order, the
executed attempts, and the fail-fast flag.  A worker failure sets
`failFastTriggered`, and the next iteration breaks out of the loop. -/
def runSeqAux (env : OrchEnv) (planContext : String) (total : Nat) :
    List WorkerTask → Nat → List (WorkerTask × WorkerResult) →
    List (WorkerTask × WorkerResult) → Bool →
    List (WorkerTask × WorkerResult) × List (WorkerTask × WorkerResult) × Bool
  | [], _, proc, atts, ff => (proc, atts, ff)
  | w :: rest, idx, proc, atts, ff =>
    if ff then (proc, atts, ff)
    else
      let workerNumber := idx + 1
      let contextBlock := buildWorkerContextBlock planContext workerNumber total (proc.map (·.2))
      let aug := augmentTask contextBlock w
      let (r, att) := executeWithRetry env aug workerNumber
      runSeqAux env planContext total rest (idx + 1) (proc ++ [(w, r)]) (atts ++ att) (!r.success)

/-- Entry point for the sequential loop. -/
def runSeqFull (env : OrchEnv) (planContext : String) (workers : List WorkerTask) :
    List (WorkerTask × WorkerResult) × List (WorkerTask × WorkerResult) × Bool :=
  runSeqAux env planContext workers.length workers 0 [] [] false

/-- The worker-number map of the parallel branch
(`plan.workers.forEach((w, i) => workerNumberMap.set(w.id, i + 1))`;
a later duplicate id overwrites an earlier one, hence the reverse). -/
def workerNumberOf (workers : List WorkerTask) (id : String) : Nat :=
  (((workers.enum.map fun p => (p.2.id, p.1 + 1)).reverse).lookup id).getD 0

/-- One scheduled worker of a parallel round, with its injected dependency
results, the augmented task actually executed, the executed attempts and the
final result. -/
structure ParEntry where
  task : WorkerTask
  num : Nat
  depResults : List WorkerResult
  augTask : WorkerTask
  attempts : List (WorkerTask × WorkerResult)
  result : WorkerResult
deriving DecidableEq

/-- State of the parallel execution loop of `Orchestrator.execute`
(`completed`, `resultMap`, `remaining`, the accumulated `workerResults`, the
round trace, the deadlock break and `failFastTriggered`). -/
structure ParState where
  completed : List String
  resultMap : List (String × WorkerResult)
  remaining : List String
  results : List WorkerResult
  rounds : List (List ParEntry)
  deadlock : Bool
  failFast : Bool
deriving DecidableEq

/-- Initial parallel state (`remaining = new Set(plan.workers.map(w => w.id))`;
a JavaScript Set keeps first insertions, hence `eraseDups`). -/
def initParState (workers : List WorkerTask) : ParState :=
  { completed := [], resultMap := [],
    remaining := (workers.map (·.id)).eraseDups,
    results := [], rounds := [], deadlock := false, failFast := false }

/-- The `ready` selection of one parallel round: remaining workers whose
declared dependencies are all completed, in plan order. -/
def readyOf (workers : List WorkerTask) (st : ParState) : List WorkerTask :=
  workers.filter fun w =>
    st.remaining.contains w.id && (depsOf w).all fun d => st.completed.contains d

/-- The scheduled entries of one parallel round: each ready worker is given
only the results of its declared dependencies (looked up in the result map),
its prompt is prefixed with the context block built from them, and it is run
through `executeWithRetry`. -/
def roundEntries (env : OrchEnv) (planContext : String) (workers : List WorkerTask)
    (total : Nat) (st : ParState) : List ParEntry :=
  (readyOf workers st).map fun w =>
    let n := workerNumberOf workers w.id
    let depRs := (depsOf w).filterMap fun d => st.resultMap.lookup d
    let aug := augmentTask (buildWorkerContextBlock planContext n total depRs) w
    let pair := executeWithRetry env aug n
    { task := w, num := n, depResults := depRs, augTask := aug,
      attempts := pair.2, result := pair.1 }

/-- The fail-fast decision taken after a parallel round (orchestrator.ts
lines 607-627).  The source computes `failedIds` as
`results.filter(r => !r.success).map((_, i) => ready[i].id)`: the map index
ranges over the *filtered* array, so the ids collected are those of the
first `k` ready workers (`ready.take k`), `k` being the number of failed
results — not the ids of the workers that actually failed.  Fail-fast
triggers when some worker still remaining after the batch directly depends
on one of those ids. -/
def roundFailFastOf (env : OrchEnv) (planContext : String) (workers : List WorkerTask)
    (total : Nat) (st : ParState) : Bool :=
  let ready := readyOf workers st
  let entries := roundEntries env planContext workers total st
  let batchIds := entries.map fun e => e.task.id
  let remaining' := st.remaining.filter fun id => !(batchIds.contains id)
  let failedCount := (entries.filter fun e => !e.result.success).length
  if failedCount = 0 then st.failFast
  else
    let failedIds := (ready.take failedCount).map (·.id)
    let blocked := workers.filter fun w =>
      remaining'.contains w.id && (depsOf w).any fun d => failedIds.contains d
    st.failFast || !blocked.isEmpty

/-- One iteration of the parallel `while` loop (orchestrator.ts lines
538-628), entered with `remaining` non-empty and fail-fast not triggered.
An empty `ready` is the deadlock break; otherwise the batch updates are
applied in order and the fail-fast flag is recomputed by
`roundFailFastOf`. -/
def parRound (env : OrchEnv) (planContext : String) (workers : List WorkerTask)
    (total : Nat) (st : ParState) : ParState :=
  let ready := readyOf workers st
  if ready.isEmpty then { st with deadlock := true }
  else
    let entries := roundEntries env planContext workers total st
    let batchIds := entries.map fun e => e.task.id
    let remaining' := st.remaining.filter fun id => !(batchIds.contains id)
    { completed := st.completed ++ batchIds,
      resultMap := (entries.map fun e => (e.task.id, e.result)).reverse ++ st.resultMap,
      remaining := remaining',
      results := st.results ++ entries.map (·.result),
      rounds := st.rounds ++ [entries],
      deadlock := st.deadlock,
      failFast := roundFailFastOf env planContext workers total st }

/-- Fuelled parallel `while` loop: stops when `remaining` is empty, when
fail-fast was triggered, or on the deadlock break. -/
def runParAux (env : OrchEnv) (planContext : String) (workers : List WorkerTask)
    (total : Nat) : Nat → ParState → ParState
  | 0, st => st
  | fuel + 1, st =>
    if st.remaining.isEmpty || st.failFast then st
    else
      let st' := parRound env planContext workers total st
      if st'.deadlock then st'
      else runParAux env planContext workers total fuel st'

/-- Entry point for the parallel loop; the fuel `workers.length + 1` exceeds
the number of possible rounds, since every non-deadlock round removes at
least one id from `remaining`. -/
def runParFull (env : OrchEnv) (planContext : String) (workers : List WorkerTask) :
    ParState :=
  runParAux env planContext workers workers.length (workers.length + 1) (initParState workers)

/-- The deterministic fallback summary synthesized when the summary
invocation fails (orchestrator.ts lines 687-692). -/
def toFixed4 (q : ℤ) : String :=
  let n : Int := q * 10000
  let m := n.natAbs
  let ip := m / 10000
  let fp := m % 10000
  let fpStr := String.mk (Nat.toDigits 10 fp)
  let pad := String.mk (List.replicate (4 - fpStr.length) '0')
  (if n < 0 then "-" else "") ++ toString ip ++ "." ++ pad ++ fpStr

/-- Fallback summary text from the summary-phase catch block. -/
def synthSummary (workerResults : List WorkerResult) (totalCostUsd : ℤ) : String :=
  let successes := (workerResults.filter (·.success)).length
  let failures := (workerResults.filter fun r => !r.success).length
  "Completed " ++ toString successes ++ " task(s) successfully" ++
    (if failures > 0 then ", " ++ toString failures ++ " failed" else "") ++
    ". Total cost: $" ++ toFixed4 totalCostUsd ++ "."

/-- `Orchestrator.execute` (orchestrator.ts lines 70-721) in the
non-cancellation case.  An `Except.error` result models a language-native
exception escaping `execute`: the planning `invokeClaude` call (line 145) is
not inside a try/catch, so its rejection propagates; only `parsePlan` is
guarded, returning the `Planning failed` summary.  The summary invocation is
guarded by its own try/catch.  `totalCostUsd` sums the planning cost and the
costs of the *final* worker results; the returned cost adds the summary
call's cost. -/
def execute (env : OrchEnv) (userTask : String) : Except String OrchestratorSummary :=
  match env.planCall with
  | .error e => .error e
  | .ok planResult =>
    match env.parsePlanFn planResult.result with
    | .error msg =>
      .ok { overallSuccess := false,
            summary := "Planning failed: " ++ msg ++
              ". The orchestrator did not produce a valid plan.",
            workerResults := [],
            totalCostUsd := planResult.costUsd.getD 0 }
    | .ok plan0 =>
      let plan := { plan0 with workers := plan0.workers.take MAX_WORKERS }
      let planContext := planContextForWorkers userTask plan
      let workerResults :=
        if plan.sequential then
          ((runSeqFull env planContext plan.workers).1.map (·.2))
        else
          (runParFull env planContext plan.workers).results
      let totalCostUsd :=
        planResult.costUsd.getD 0 + (workerResults.map fun r => r.costUsd.getD 0).sum
      let summaryPair :=
        match env.summaryCall with
        | .ok sr => (sr.result, sr.costUsd.getD 0)
        | .error _ => (synthSummary workerResults totalCostUsd, (0 : ℤ))
      let overallSuccess := !workerResults.isEmpty && workerResults.all (·.success)
      .ok { overallSuccess := overallSuccess,
            summary := summaryPair.1,
            workerResults := workerResults,
            totalCostUsd := totalCostUsd + summaryPair.2 }

/-- Inputs to the `close` handler of `invokeClaudeInternal` (invoker.ts):
whether the call's abort signal had been triggered, the process exit code,
and the captured stdout/stderr. -/
structure CloseInput where
  aborted : Bool
  code : Int
  stdout : String
  stderr : String
deriving DecidableEq

/-- Error message of the invoker's call-scoped timeout
(`Claude CLI timed out after ${effectiveTimeout}ms`). -/
def invokerTimeoutError (ms : Nat) : String :=
  "Claude CLI timed out after " ++ toString ms ++ "ms"

/-- The `close` handler of `invokeClaudeInternal` (invoker.ts): a triggered
abort signal rejects with `Cancelled`; a non-zero exit with empty stdout
rejects with the stderr text (rate-limit errors classified distinctly);
otherwise stdout is parsed (`parse` is the oracle for `parseClaudeOutput`),
falling back to the raw trimmed stdout with `isError=false`. -/
def closeOutcome (parse : String → Except String ClaudeRes) (inp : CloseInput) :
    Except String ClaudeRes :=
  if inp.aborted then .error "Cancelled"
  else if inp.code ≠ 0 ∧ inp.stdout = "" then
    let errMsg := if inp.stderr ≠ "" then inp.stderr
                  else "Claude CLI exited with code " ++ toString inp.code
    if strIncludes inp.stderr "rate limit" || strIncludes inp.stderr "429" then
      .error ("Rate limited: " ++ errMsg)
    else .error errMsg
  else
    match parse inp.stdout with
    | .ok r => .ok r
    | .error perr =>
      if strTrim inp.stdout ≠ "" then .ok { result := strTrim inp.stdout, isError := false }
      else .error perr

/-- Modelled from the spec: the Worker Executor (`worker.ts`, not under
`src/`) wraps a single task in an Invoker call and normalizes a resolved
`ClaudeResult` to a Worker Result with `success = !isError`, forwarding cost
and duration; an Invoker rejection propagates to the orchestrator's
monitoring catch handler (spec section 4.4). -/
def workerAgentExecute (taskId : String) (outcome : Except String ClaudeRes)
    (durationMs : Nat) : Except String WorkerResult :=
  match outcome with
  | .ok r => .ok { taskId := taskId, success := !r.isError, result := r.result,
                   costUsd := r.costUsd, duration := some durationMs }
  | .error e => .error e

/-- The catch handler of `executeWithMonitoring` (orchestrator.ts lines
399-414): `wasKilled` is the worker's own abort controller having fired
while the orchestration signal has not; `wasTimedOut` is the rejected error
message containing `timed out`.  `wasKilled` is checked first. -/
def monitoredCatchResult (taskId : String) (workerAborted orchAborted : Bool)
    (errMsg : String) (durationMs : Nat) : WorkerResult :=
  let wasKilled := workerAborted && !orchAborted
  let wasTimedOut := strIncludes errMsg "timed out"
  { taskId := taskId, success := false,
    result :=
      if wasKilled then "Worker killed by user"
      else if wasTimedOut then "Worker timed out after " ++ formatDuration WORKER_TIMEOUT_MS
      else "Worker error: " ++ errMsg,
    costUsd := none,
    duration := some durationMs }

/-- Settlement of one `executeWithMonitoring` promise: a resolved worker
execution is passed through; a rejection is mapped by the catch handler. -/
def monitoringOutcome (taskId : String) (workerAborted orchAborted : Bool)
    (agentOutcome : Except String WorkerResult) (durationMs : Nat) : WorkerResult :=
  match agentOutcome with
  | .ok r => r
  | .error e => monitoredCatchResult taskId workerAborted orchAborted e durationMs

/-- `WorkRequest` from types.ts, as produced by `JSON.parse` on an action
block (a missing `task` behaves like the empty string under the source's
truthiness test). -/
structure WorkReq where
  type : String
  task : String
  context : String
  urgency : String
deriving DecidableEq

/-- Return value of `parseChatResponse` (chat-agent.ts). -/
structure ParsedChat where
  chatText : String
  action : Option WorkReq
  memoryNote : Option String
deriving DecidableEq

/-- First index at which `pat` occurs in `hay`, if any. -/
def findSub (hay pat : List Char) : Option Nat :=
  match hay with
  | [] => if pat.isEmpty then some 0 else none
  | _ :: t =>
    if pat.isPrefixOf hay then some 0
    else (findSub t pat).map (· + 1)

/-- First match of the JavaScript regex `<open>([\s\S]*?)<close>` against
`text`: the text before the match, the captured inner text, and the text
after the match.  The match starts at the first occurrence of the opening
delimiter and ends at the first occurrence of the closing delimiter after
it. -/
def matchBlock (openTag closeTag text : List Char) :
    Option (List Char × List Char × List Char) :=
  match findSub text openTag with
  | none => none
  | some i =>
    let rest := text.drop (i + openTag.length)
    match findSub rest closeTag with
    | none => none
    | some j =>
      some (text.take i, rest.take j, rest.drop (j + closeTag.length))

/-- The opening action delimiter of chat-agent.ts. -/
def actionOpen : List Char := "<RUMPBOT_ACTION>".data

/-- The closing action delimiter of chat-agent.ts. -/
def actionClose : List Char := "</RUMPBOT_ACTION>".data

/-- The opening memory delimiter of chat-agent.ts. -/
def memOpen : List Char := "<TIFFBOT_MEMORY>".data

/-- The closing memory delimiter of chat-agent.ts. -/
def memClose : List Char := "</TIFFBOT_MEMORY>".data

/-- JavaScript `text.replace(regex, "")` for a non-global block regex:
remove the first matched block, if any. -/
def stripFirstBlock (openTag closeTag text : List Char) : List Char :=
  match matchBlock openTag closeTag text with
  | none => text
  | some (pre, _, post) => pre ++ post

/-- `parseChatResponse` from chat-agent.ts.  `jp` is the oracle for
JavaScript `JSON.parse` on the trimmed captured action text (`none` models
a parse exception).  The action is accepted only when `type=="work_request"`
and `task` is non-empty; the memory note is the trimmed first memory block
of the original text; the chat text is the input with the first action block
removed, then the first memory block removed, trimmed, with the placeholder
substituted when empty. -/
def parseChatResponse (jp : String → Option WorkReq) (text : String) : ParsedChat :=
  let actionM := matchBlock actionOpen actionClose text.data
  let action : Option WorkReq :=
    match actionM with
    | none => none
    | some (_, inner, _) =>
      match jp (String.mk (trimChars inner)) with
      | some parsed =>
        if parsed.type == "work_request" && parsed.task != "" then some parsed else none
      | none => none
  let memoryM := matchBlock memOpen memClose text.data
  let memoryNote := memoryM.map fun m => String.mk (trimChars m.2.1)
  let stripped := stripFirstBlock memOpen memClose
    (stripFirstBlock actionOpen actionClose text.data)
  let chatText := String.mk (trimChars stripped)
  { chatText := if chatText == "" then "Working on it..." else chatText,
    action := action,
    memoryNote := memoryNote }

deriving instance DecidableEq for Except

/-- Loop invariant of the parallel scheduler, relating the mutable state to
the trace of executed rounds: `results` flattens the rounds' results in
order, `completed` holds exactly the ids of the executed entries in
execution order, `resultMap` is the association list of executed entries
(latest first, matching the overwrite semantics of `Map.set`), and
`remaining` is the initial id set minus the completed ids. -/
def ParInvariant (ws : List WorkerTask) (st : ParState) : Prop :=
  st.results = (st.rounds.flatten).map ParEntry.result ∧
  st.completed = (st.rounds.flatten).map (fun e => e.task.id) ∧
  st.resultMap = ((st.rounds.flatten).map fun e => (e.task.id, e.result)).reverse ∧
  st.remaining = ((ws.map (·.id)).eraseDups).filter fun id => !(st.completed.contains id)

/-- Per-round scheduling properties of a parallel round trace: every entry
of round `k` has all its declared dependencies executed in rounds before
`k`; its injected `depResults` are exactly the recorded results of its
declared dependencies (one per dependency); and its executed task is its
plan task with the context block built from exactly those results prefixed
to the prompt. -/
def RoundsGood (pc : String) (ws : List WorkerTask) (total : Nat)
    (rounds : List (List ParEntry)) : Prop :=
  ∀ k (hk : k < rounds.length), ∀ e ∈ rounds.get ⟨k, hk⟩,
    (∀ d ∈ depsOf e.task, ∃ e' ∈ (rounds.take k).flatten, e'.task.id = d) ∧
    e.depResults = (depsOf e.task).filterMap
      (fun d => (((rounds.take k).flatten.map fun e' => (e'.task.id, e'.result)).reverse).lookup d) ∧
    e.depResults.length = (depsOf e.task).length ∧
    e.augTask = augmentTask (buildWorkerContextBlock pc e.num total e.depResults) e.task ∧
    e.task ∈ ws

/-- Fallback summary value used to name computed summaries in witnesses. -/
def defaultSummary : OrchestratorSummary :=
  { overallSuccess := false, summary := "", workerResults := [], totalCostUsd := 0 }

/-- Concrete environment for the C1 witness: a one-worker sequential plan
whose worker succeeds. -/
def envW1 : OrchEnv :=
  { planCall := .ok { result := "PLAN", costUsd := some 1 },
    parsePlanFn := fun s =>
      if s == "PLAN" then
        .ok { summary := "s", workers := [{ id := "w1", description := "d1", prompt := "p1" }],
              sequential := true }
      else .error "bad",
    exec := fun t _ => { taskId := t.id, success := true, result := "ok", costUsd := some 2 },
    summaryCall := .ok { result := "all done", costUsd := some 3 } }

/-- The summary computed by `execute` on `envW1`. -/
def summW1 : OrchestratorSummary :=
  (execute envW1 "t").toOption.getD defaultSummary

/-- Concrete plan for the C2 scenario. -/
def planCost : OrchestratorPlan :=
  { summary := "s", workers := [{ id := "w1", description := "d1", prompt := "p1" }],
    sequential := true }

/-- Concrete environment for the C2 scenario: planning costs 1; the single
worker's first attempt fails with a transient `429` text at cost 5; its
retry succeeds at cost 2; the summary call costs 3. -/
def envCost : OrchEnv :=
  { planCall := .ok { result := "PLAN", costUsd := some 1 },
    parsePlanFn := fun s => if s == "PLAN" then .ok planCost else .error "bad",
    exec := fun t _ =>
      if t.id == "w1" then
        { taskId := t.id, success := false, result := "Error: 429 rate limit", costUsd := some 5 }
      else
        { taskId := t.id, success := true, result := "done", costUsd := some 2 },
    summaryCall := .ok { result := "sum", costUsd := some 3 } }

/-- The summary computed by `execute` on `envCost`. -/
def summCost : OrchestratorSummary :=
  (execute envCost "t").toOption.getD defaultSummary

/-- Environment whose worker execution succeeds with a result text that
contains the transient pattern `429`. -/
def envSucc429 : OrchEnv :=
  { planCall := .error "unused", parsePlanFn := fun _ => .error "unused",
    exec := fun t _ => { taskId := t.id, success := true, result := "HTTP 429 but fine" },
    summaryCall := .error "unused" }

/-- Task used with `envSucc429`. -/
def taskSucc429 : WorkerTask := { id := "a", description := "d", prompt := "p" }

/-- Environment whose worker execution fails with a transient text on task
`b` and succeeds on the `b-retry` task. -/
def envFail429 : OrchEnv :=
  { planCall := .error "unused", parsePlanFn := fun _ => .error "unused",
    exec := fun t _ =>
      if t.id == "b" then { taskId := t.id, success := false, result := "rate limit hit" }
      else { taskId := t.id, success := true, result := "fine" },
    summaryCall := .error "unused" }

/-- Task used with `envFail429`. -/
def taskFail429 : WorkerTask := { id := "b", description := "d", prompt := "p" }

/-- Environment whose planning invocation is the invoker outcome for a
process that exited non-zero with empty stdout and stderr `boom`. -/
def envPlanExit : OrchEnv :=
  { planCall := closeOutcome (fun _ => .error "no json")
      { aborted := false, code := 1, stdout := "", stderr := "boom" },
    parsePlanFn := fun _ => .error "unused",
    exec := fun t _ => { taskId := t.id, success := true, result := "r" },
    summaryCall := .error "unused" }

/-- Environment whose planning invocation is the invoker's call-scoped
timeout rejection. -/
def envPlanTimeout : OrchEnv :=
  { planCall := .error (invokerTimeoutError 30000),
    parsePlanFn := fun _ => .error "unused",
    exec := fun t _ => { taskId := t.id, success := true, result := "r" },
    summaryCall := .error "unused" }

/-- Environment whose planning invocation resolves but does not parse as a
plan. -/
def envPlanParseFail : OrchEnv :=
  { planCall := .ok { result := "Sorry, cannot plan.", costUsd := some 2 },
    parsePlanFn := fun _ => .error "bad",
    exec := fun t _ => { taskId := t.id, success := true, result := "r" },
    summaryCall := .error "unused" }

/-- JSON-parse oracle for the C10 scenario: the captured text `J1` parses to
a valid work request. -/
def jpChat : String → Option WorkReq :=
  fun s => if s == "J1" then some { type := "work_request", task := "do", context := "", urgency := "normal" }
           else none

/-- The valid work request produced by `jpChat`. -/
def wrChat : WorkReq := { type := "work_request", task := "do", context := "", urgency := "normal" }

/-- Chat reply containing two action blocks, the first one valid. -/
def textTwoBlocks : String :=
  "<RUMPBOT_ACTION>J1</RUMPBOT_ACTION> hi <RUMPBOT_ACTION>J2</RUMPBOT_ACTION>"

/-- Concrete plan for the C5 witness: parallel plan `A; B dependsOn A;
C dependsOn A; D dependsOn B, C`. -/
def planPar4 : OrchestratorPlan :=
  { summary := "s",
    workers := [{ id := "A", description := "a", prompt := "pa" },
                { id := "B", description := "b", prompt := "pb", dependsOn := some ["A"] },
                { id := "C", description := "c", prompt := "pc", dependsOn := some ["A"] },
                { id := "D", description := "d", prompt := "pd", dependsOn := some ["B", "C"] }],
    sequential := false }

/-- Concrete environment for the C5 witness: every worker succeeds. -/
def envPar4 : OrchEnv :=
  { planCall := .ok { result := "PLAN", costUsd := none },
    parsePlanFn := fun s => if s == "PLAN" then .ok planPar4 else .error "bad",
    exec := fun t _ => { taskId := t.id, success := true, result := "ok " ++ t.id },
    summaryCall := .ok { result := "sum", costUsd := none } }

/-- Plan context string of the C5 witness run. -/
def pcPar4 : String := planContextForWorkers "t" planPar4

/-- Final parallel state of the C5 witness run. -/
def outPar4 : ParState := runParFull envPar4 pcPar4 planPar4.workers

/-- A placeholder entry used as `headD` default. -/
def dummyEntry : ParEntry :=
  { task := { id := "", description := "", prompt := "" }, num := 0, depResults := [],
    augTask := { id := "", description := "", prompt := "" }, attempts := [],
    result := { taskId := "", success := false, result := "" } }

/-- The second round of the C5 witness run (workers `B` and `C`). -/
def roundPar4B : List ParEntry := outPar4.rounds.getD 1 []

/-- The entry of worker `B` in the second round of the C5 witness run. -/
def entryPar4B : ParEntry := roundPar4B.headD dummyEntry

/-- Concrete plan for the C6 scenario: `A` and `C` independent, `B`
depending on `A`, in parallel mode; listed in the order `A, C, B`. -/
def planParFF : OrchestratorPlan :=
  { summary := "s",
    workers := [{ id := "A", description := "a", prompt := "pa" },
                { id := "C", description := "c", prompt := "pc" },
                { id := "B", description := "b", prompt := "pb", dependsOn := some ["A"] }],
    sequential := false }

/-- Concrete environment for the C6 scenario: `C` fails with a
non-transient error text, everything else succeeds. -/
def envParFF : OrchEnv :=
  { planCall := .ok { result := "PLAN", costUsd := none },
    parsePlanFn := fun s => if s == "PLAN" then .ok planParFF else .error "bad",
    exec := fun t _ =>
      if t.id == "C" then { taskId := t.id, success := false, result := "worker broke" }
      else { taskId := t.id, success := true, result := "ok " ++ t.id },
    summaryCall := .ok { result := "sum", costUsd := none } }

/-- Plan context string of the C6 scenario run. -/
def pcParFF : String := planContextForWorkers "t" planParFF

/-- Final parallel state of the C6 scenario run. -/
def outParFF : ParState := runParFull envParFF pcParFF planParFF.workers

/-- Concrete plan for the C7 scenario: worker `B` depends on the
nonexistent id `Z`, so after round 1 no worker is ever ready. -/
def planDL : OrchestratorPlan :=
  { summary := "s",
    workers := [{ id := "A", description := "a", prompt := "pa" },
                { id := "B", description := "b", prompt := "pb", dependsOn := some ["Z"] }],
    sequential := false }

/-- Concrete environment for the C7 scenario: every executed worker
succeeds. -/
def envDL : OrchEnv :=
  { planCall := .ok { result := "PLAN", costUsd := none },
    parsePlanFn := fun s => if s == "PLAN" then .ok planDL else .error "bad",
    exec := fun t _ => { taskId := t.id, success := true, result := "ok " ++ t.id },
    summaryCall := .ok { result := "sum", costUsd := none } }

/-- Plan context string of the C7 scenario run. -/
def pcDL : String := planContextForWorkers "t" planDL

/-- Final parallel state of the C7 scenario run. -/
def outDL : ParState := runParFull envDL pcDL planDL.workers

/-- Chat reply with exactly one action block and one memory block. -/
def textOneBlock : String :=
  "<RUMPBOT_ACTION>J1</RUMPBOT_ACTION> ok <TIFFBOT_MEMORY>note</TIFFBOT_MEMORY>"

/-- A boolean `overallSuccess` expression equals `true` exactly when the
result list is non-empty and all results succeeded. -/
theorem overallSuccess_bool_iff (l : List WorkerResult) :
    (!l.isEmpty && l.all (·.success)) = true ↔ l ≠ [] ∧ ∀ r ∈ l, r.success = true := by
  simp [List.all_eq_true, List.isEmpty_iff]

/-- C1.  For every orchestration run that returns a summary, the summary's
`overallSuccess` field is `true` iff the returned `workerResults` list is
non-empty and every worker result in it has `success = true`.  (The early
plan-parse-failure return also satisfies the equivalence, with an empty list
and `overallSuccess = false`.) -/
theorem C1_overall_success_iff (env : OrchEnv) (t : String) (s : OrchestratorSummary)
    (h : execute env t = .ok s) :
    s.overallSuccess = true ↔ s.workerResults ≠ [] ∧ ∀ r ∈ s.workerResults, r.success = true := by
  unfold execute at h
  split at h
  · exact absurd h (by simp)
  · split at h
    · rw [Except.ok.injEq] at h
      subst h
      simp
    · rw [Except.ok.injEq] at h
      subst h
      exact overallSuccess_bool_iff _

/-- Witness for C1 at the concrete environment `envW1`. -/
theorem C1_overall_success_iff_witness :
    execute envW1 "t" = .ok summW1 ∧
    (summW1.overallSuccess = true ↔
      summW1.workerResults ≠ [] ∧ ∀ r ∈ summW1.workerResults, r.success = true) :=
  ⟨by decide, C1_overall_success_iff envW1 "t" summW1 (by decide)⟩

/-- C2 counterexample.  On `envCost` the worker is retried: the executed
attempts cost 5 and 2 (sum 7), planning costs 1 and the summary costs 3,
so the claimed total over every executed attempt is 11 — but the returned
`totalCostUsd` is 6: the failed first attempt's cost is dropped, because
the sum ranges over the final `workerResults` only. -/
theorem C2_cost_counterexample :
    execute envCost "t" = .ok summCost ∧
    summCost.totalCostUsd = 6 ∧
    ((runSeqFull envCost (planContextForWorkers "t" planCost) planCost.workers).2.1.map
      fun p => p.2.costUsd.getD 0).sum = 7 ∧
    (1 : ℤ) + 7 + 3 = 11 ∧ (11 : ℤ) ≠ 6 := by
  decide

/-- C2 amended.  For every run that reaches the execution phase, the
returned `totalCostUsd` is the planning call's cost plus the costs of the
final per-worker results (a retried worker contributes only its retry's
cost; a dropped first attempt's cost is not counted) plus the summary
call's cost, all treating missing costs as 0. -/
theorem C2_cost_amended (env : OrchEnv) (t : String) (pr : ClaudeRes)
    (plan0 : OrchestratorPlan) (s : OrchestratorSummary)
    (hplan : env.planCall = .ok pr)
    (hparse : env.parsePlanFn pr.result = .ok plan0)
    (h : execute env t = .ok s) :
    s.totalCostUsd = pr.costUsd.getD 0 +
      (s.workerResults.map fun r => r.costUsd.getD 0).sum +
      (match env.summaryCall with
        | .ok sr => sr.costUsd.getD 0
        | .error _ => 0) := by
  unfold execute at h
  rw [hplan] at h
  simp only at h
  rw [hparse] at h
  simp only [Except.ok.injEq] at h
  subst h
  cases hs : env.summaryCall <;> simp [hs]

/-- Witness for the amended C2 at the concrete environment `envCost`. -/
theorem C2_cost_amended_witness :
    execute envCost "t" = .ok summCost ∧
    summCost.totalCostUsd = 1 + (summCost.workerResults.map fun r => r.costUsd.getD 0).sum + 3 :=
  ⟨by decide, C2_cost_amended envCost "t" { result := "PLAN", costUsd := some 1 } planCost summCost
    (by decide) (by decide) (by decide)⟩

/-- C3 counterexample.  A first execution that *succeeds* with a result
text containing the transient pattern `429` is not retried: the worker is
executed exactly once, although the claim requires exactly two executions
for every result text containing a transient pattern. -/
theorem C3_retry_counterexample :
    isTransientError (envSucc429.exec taskSucc429 1).result = true ∧
    (envSucc429.exec taskSucc429 1).success = true ∧
    (executeWithRetry envSucc429 taskSucc429 1).2.length = 1 ∧
    (executeWithRetry envSucc429 taskSucc429 1).1 = envSucc429.exec taskSucc429 1 := by
  decide

/-- C3 amended.  For every scheduled worker whose first execution *fails*
(`success = false`) with a result text containing a transient-error
pattern, the worker is executed exactly twice: once as scheduled and once
more with the task id `<id>-retry`, and the retry's result replaces the
first attempt's result. -/
theorem C3_retry_amended (env : OrchEnv) (task : WorkerTask) (n : Nat)
    (hfail : (env.exec task n).success = false)
    (htrans : isTransientError (env.exec task n).result = true) :
    executeWithRetry env task n =
      (env.exec { task with id := task.id ++ "-retry" } n,
       [(task, env.exec task n),
        ({ task with id := task.id ++ "-retry" },
         env.exec { task with id := task.id ++ "-retry" } n)]) := by
  unfold executeWithRetry
  simp [hfail, htrans]

/-- Witness for the amended C3 at the concrete environment `envFail429`. -/
theorem C3_retry_amended_witness :
    (envFail429.exec taskFail429 1).success = false ∧
    isTransientError (envFail429.exec taskFail429 1).result = true ∧
    executeWithRetry envFail429 taskFail429 1 =
      (envFail429.exec { taskFail429 with id := taskFail429.id ++ "-retry" } 1,
       [(taskFail429, envFail429.exec taskFail429 1),
        ({ taskFail429 with id := taskFail429.id ++ "-retry" },
         envFail429.exec { taskFail429 with id := taskFail429.id ++ "-retry" } 1)]) :=
  ⟨by decide, by decide, C3_retry_amended envFail429 taskFail429 1 (by decide) (by decide)⟩

/-- C8 counterexample.  A planning invocation that rejects — here a
non-zero exit with empty stdout, and likewise the invoker's call-scoped
timeout — propagates out of `execute` as an exception (`Except.error`); no
summary value is returned, contradicting the claim that such planning
failures still yield a Summary with `overallSuccess = false`. -/
theorem C8_exception_counterexample :
    execute envPlanExit "t" = .error "boom" ∧
    execute envPlanTimeout "t" = .error (invokerTimeoutError 30000) := by
  constructor <;> rfl

/-- C8 amended.  `execute` returns a summary value exactly when the
planning invocation resolves: a planning rejection (timeout, non-zero exit
with empty stdout) propagates out of `execute` unchanged, while a resolved
planning call always produces a returned summary — in particular a
plan-parse failure yields `overallSuccess = false`, no worker results, and
the `Planning failed` text. -/
theorem C8_exception_amended (env : OrchEnv) (t : String) :
    (∀ e, env.planCall = .error e → execute env t = .error e) ∧
    (∀ pr, env.planCall = .ok pr → ∃ s, execute env t = .ok s) ∧
    (∀ pr msg, env.planCall = .ok pr → env.parsePlanFn pr.result = .error msg →
      execute env t = .ok { overallSuccess := false,
                            summary := "Planning failed: " ++ msg ++
                              ". The orchestrator did not produce a valid plan.",
                            workerResults := [],
                            totalCostUsd := pr.costUsd.getD 0 }) := by
  refine ⟨fun e he => ?_, fun pr hpr => ?_, fun pr msg hpr hmsg => ?_⟩
  · unfold execute
    rw [he]
  · unfold execute
    rw [hpr]
    simp only
    cases hq : env.parsePlanFn pr.result with
    | error msg => exact ⟨_, rfl⟩
    | ok plan0 => exact ⟨_, rfl⟩
  · unfold execute
    rw [hpr]
    simp only
    rw [hmsg]

/-- Witness for the amended C8: a resolved-but-unparseable planning call
yields a returned summary, and an erroring planning call propagates. -/
theorem C8_exception_amended_witness :
    (∃ s, execute envPlanParseFail "t" = .ok s) ∧
    execute envPlanTimeout "t" = .error (invokerTimeoutError 30000) :=
  ⟨(C8_exception_amended envPlanParseFail "t").2.1 _ rfl,
   (C8_exception_amended envPlanTimeout "t").1 _ rfl⟩

/-- C9.  When the per-worker timeout fires it aborts the worker's own
abort controller; the invoker then rejects with `Cancelled`, and the
monitoring catch handler — which checks `wasKilled` before `wasTimedOut` —
records the result text `Worker killed by user`, not a text reporting
`timed out`.  The `Worker timed out after 5m` text (which formats
`WORKER_TIMEOUT_MS`) is produced only when the execution rejects with an
error message containing `timed out` (the invoker's own call-scoped
timeout) while the worker abort controller has *not* fired. -/
theorem C9_timeout_reported_as_killed :
    (monitoringOutcome "w1" true false
      (workerAgentExecute "w1"
        (closeOutcome (fun _ => .error "no json")
          { aborted := true, code := 0, stdout := "", stderr := "" }) 1234) 1234).result
      = "Worker killed by user" ∧
    strIncludes
      (monitoringOutcome "w1" true false
        (workerAgentExecute "w1"
          (closeOutcome (fun _ => .error "no json")
            { aborted := true, code := 0, stdout := "", stderr := "" }) 1234) 1234).result
      "timed out" = false ∧
    (monitoringOutcome "w1" false false
      (workerAgentExecute "w1" (.error (invokerTimeoutError 300000)) 1234) 1234).result
      = "Worker timed out after " ++ formatDuration WORKER_TIMEOUT_MS := by
  decide

/-- C10 counterexample.  A reply with two action blocks, the first one
valid, yields the correct work request, but only the first block is
stripped (`replace` with a non-global regex): the returned chat text still
contains the action delimiter. -/
theorem C10_chat_counterexample :
    (parseChatResponse jpChat textTwoBlocks).action = some wrChat ∧
    strIncludes (parseChatResponse jpChat textTwoBlocks).chatText "<RUMPBOT_ACTION>" = true := by
  decide

/-- Concrete plan for the C4 witness: three sequential workers. -/
def planSeq3 : OrchestratorPlan :=
  { summary := "s",
    workers := [{ id := "w1", description := "d1", prompt := "p1" },
                { id := "w2", description := "d2", prompt := "p2" },
                { id := "w3", description := "d3", prompt := "p3" }],
    sequential := true }

/-- Concrete environment for the C4 witness: worker `w2` fails with a
non-transient error text. -/
def envSeq3 : OrchEnv :=
  { planCall := .ok { result := "PLAN", costUsd := none },
    parsePlanFn := fun s => if s == "PLAN" then .ok planSeq3 else .error "bad",
    exec := fun t _ =>
      if t.id == "w2" then { taskId := t.id, success := false, result := "fatal assertion" }
      else { taskId := t.id, success := true, result := "ok" },
    summaryCall := .ok { result := "sum", costUsd := none } }

/-- A sequential run with the fail-fast flag already set performs no work. -/
theorem runSeqAux_ff_stop (env : OrchEnv) (pc : String) (tot : Nat)
    (ws : List WorkerTask) (idx : Nat) (proc atts : List (WorkerTask × WorkerResult)) :
    runSeqAux env pc tot ws idx proc atts true = (proc, atts, true) := by
  cases ws <;> simp [runSeqAux]

/-- Shape of the sequential loop's processed list: it extends the
accumulator with the results of an initial segment of the worker list, in
order, and only its last entry can be a failure. -/
theorem runSeqAux_spec (env : OrchEnv) (pc : String) (tot : Nat) :
    ∀ (ws : List WorkerTask) (idx : Nat) (proc atts : List (WorkerTask × WorkerResult)),
      ∃ q : List (WorkerTask × WorkerResult),
        (runSeqAux env pc tot ws idx proc atts false).1 = proc ++ q ∧
        q.map Prod.fst = ws.take q.length ∧
        ∀ i (h : i < q.length), (q.get ⟨i, h⟩).2.success = false → i + 1 = q.length := by
  intro ws
  induction ws with
  | nil =>
    intro idx proc atts
    refine ⟨[], by simp [runSeqAux], by simp, ?_⟩
    intro i h
    simp at h
  | cons w rest ih =>
    intro idx proc atts
    simp only [runSeqAux, if_neg (by simp : ¬(false = true))]
    rcases hE : executeWithRetry env
        (augmentTask (buildWorkerContextBlock pc (idx + 1) tot (proc.map (·.2))) w) (idx + 1)
      with ⟨r, att⟩
    by_cases hs : r.success
    · obtain ⟨q', h1, h2, h3⟩ := ih (idx + 1) (proc ++ [(w, r)]) (atts ++ att)
      refine ⟨(w, r) :: q', ?_, ?_, ?_⟩
      · simp only [hE, hs, Bool.not_true]
        rw [h1]
        simp
      · simpa using h2
      · intro i h hf
        match i with
        | 0 => simp [hs] at hf
        | j + 1 =>
          have := h3 j (by simpa using h) (by simpa using hf)
          simpa using this
    · have hs' : r.success = false := by simpa using hs
      refine ⟨[(w, r)], ?_, by simp, ?_⟩
      · simp only [hE, hs', Bool.not_false]
        rw [runSeqAux_ff_stop]
      · intro i h hf
        have hi : i = 0 := Nat.lt_one_iff.mp (by simpa using h)
        subst hi
        rfl

/-- C4.  In sequential mode the processed entries correspond, in order, to
an initial segment of the plan's workers, and any failing final result sits
at the last processed position: every worker after the first failing one is
skipped and produces no entry in `workerResults`.  (The witness exhibits
the particular 3-worker instance: worker 2 fails, `workerResults` has
length 2 and `overallSuccess` is false.) -/
theorem C4_sequential_failfast (env : OrchEnv) (pc : String) (ws : List WorkerTask) :
    ((runSeqFull env pc ws).1.map Prod.fst = ws.take (runSeqFull env pc ws).1.length) ∧
    ∀ i (h : i < (runSeqFull env pc ws).1.length),
      ((runSeqFull env pc ws).1.get ⟨i, h⟩).2.success = false →
        i + 1 = (runSeqFull env pc ws).1.length := by
  obtain ⟨q, h1, h2, h3⟩ := runSeqAux_spec env pc ws.length ws 0 [] []
  have hq : (runSeqFull env pc ws).1 = q := by
    unfold runSeqFull
    rw [h1]
    simp
  rw [hq]
  exact ⟨h2, h3⟩

/-- Witness for C4 at the concrete 3-worker sequential environment
`envSeq3`: the summary has exactly two worker results and
`overallSuccess = false`, and the failing entry (index 1) is the last
processed one. -/
theorem C4_sequential_failfast_witness :
    (execute envSeq3 "t").toOption.map (fun s => (s.workerResults.length, s.overallSuccess))
      = some (2, false) ∧
    1 + 1 = (runSeqFull envSeq3 (planContextForWorkers "t" planSeq3) planSeq3.workers).1.length :=
  ⟨by decide,
   (C4_sequential_failfast envSeq3 (planContextForWorkers "t" planSeq3) planSeq3.workers).2
     1 (by decide) (by decide)⟩

theorem contains_iff_mem (l : List String) (a : String) : l.contains a = true ↔ a ∈ l := by
  simp

theorem lookup_isSome_of_key (l : List (String × WorkerResult)) (d : String)
    (h : ∃ p ∈ l, p.1 = d) : (List.lookup d l).isSome = true := by
  induction l with
  | nil =>
    obtain ⟨p, hp, _⟩ := h
    simp at hp
  | cons x t ih =>
    obtain ⟨k, v⟩ := x
    by_cases hk : k = d
    · subst hk
      simp [List.lookup]
    · obtain ⟨p, hp, hpd⟩ := h
      rcases List.mem_cons.mp hp with rfl | hmem
      · exact absurd hpd hk
      · have hne : (d == k) = false := by
          simp [beq_eq_false_iff_ne]
          exact fun hdk => hk hdk.symm
        simpa [List.lookup, hne] using ih ⟨p, hmem, hpd⟩

theorem filterMap_length_eq {α β : Type} (l : List α) (f : α → Option β)
    (h : ∀ a ∈ l, (f a).isSome = true) : (l.filterMap f).length = l.length := by
  induction l with
  | nil => rfl
  | cons a t ih =>
    cases hfa : f a with
    | none =>
      have := h a (List.mem_cons_self a t)
      rw [hfa] at this
      simp at this
    | some b =>
      simp only [List.filterMap_cons, hfa, List.length_cons]
      rw [ih fun x hx => h x (List.mem_cons_of_mem a hx)]

theorem get_concat_self {α : Type} (l : List α) (a : α) (h : l.length < (l ++ [a]).length) :
    (l ++ [a]).get ⟨l.length, h⟩ = a := by
  induction l with
  | nil => rfl
  | cons x t ih => simp [ih]

theorem roundEntries_map_task (env : OrchEnv) (pc : String) (ws : List WorkerTask)
    (total : Nat) (st : ParState) :
    (roundEntries env pc ws total st).map ParEntry.task = readyOf ws st := by
  unfold roundEntries
  rw [List.map_map]
  exact List.map_id _

theorem contains_append (l₁ l₂ : List String) (a : String) :
    (l₁ ++ l₂).contains a = (l₁.contains a || l₂.contains a) := by
  by_cases h1 : a ∈ l₁ <;> by_cases h2 : a ∈ l₂ <;> simp [h1, h2]

theorem parRound_preserves (env : OrchEnv) (pc : String) (ws : List WorkerTask)
    (total : Nat) (st : ParState) (hInv : ParInvariant ws st) :
    ParInvariant ws (parRound env pc ws total st) ∧
    (RoundsGood pc ws total st.rounds →
      RoundsGood pc ws total (parRound env pc ws total st).rounds) := by
  obtain ⟨hres, hcomp, hmap, hrem⟩ := hInv
  unfold parRound
  by_cases hempty : (readyOf ws st).isEmpty = true
  · rw [if_pos hempty]
    exact ⟨⟨hres, hcomp, hmap, hrem⟩, fun hg => hg⟩
  · rw [if_neg hempty]
    constructor
    · refine ⟨?_, ?_, ?_, ?_⟩
      · show st.results ++ (roundEntries env pc ws total st).map (·.result) =
          ((st.rounds ++ [roundEntries env pc ws total st]).flatten).map ParEntry.result
        rw [List.flatten_append, List.flatten_cons, List.flatten_nil, List.append_nil,
          List.map_append, hres]
      · show st.completed ++ (roundEntries env pc ws total st).map (fun e => e.task.id) =
          ((st.rounds ++ [roundEntries env pc ws total st]).flatten).map (fun e => e.task.id)
        rw [List.flatten_append, List.flatten_cons, List.flatten_nil, List.append_nil,
          List.map_append, hcomp]
      · show ((roundEntries env pc ws total st).map fun e => (e.task.id, e.result)).reverse ++
            st.resultMap =
          (((st.rounds ++ [roundEntries env pc ws total st]).flatten).map
            fun e => (e.task.id, e.result)).reverse
        rw [List.flatten_append, List.flatten_cons, List.flatten_nil, List.append_nil,
          List.map_append, List.reverse_append, hmap]
      · show st.remaining.filter
            (fun id => !(((roundEntries env pc ws total st).map fun e => e.task.id).contains id)) =
          ((ws.map (·.id)).eraseDups).filter fun id =>
            !((st.completed ++ (roundEntries env pc ws total st).map fun e => e.task.id).contains id)
        rw [hrem, List.filter_filter]
        apply List.filter_congr
        intro a _
        rw [contains_append]
        cases h1 : st.completed.contains a <;>
          cases h2 : ((roundEntries env pc ws total st).map fun e => e.task.id).contains a <;>
            rfl
    · intro hg k hk e he
      by_cases hklt : k < st.rounds.length
      · have hget : (st.rounds ++ [roundEntries env pc ws total st]).get ⟨k, hk⟩ =
            st.rounds.get ⟨k, hklt⟩ := List.get_append k hklt
        rw [hget] at he
        have htake : (st.rounds ++ [roundEntries env pc ws total st]).take k = st.rounds.take k :=
          List.take_append_of_le_length (Nat.le_of_lt hklt)
        have hold := hg k hklt e he
        rw [htake]
        exact hold
      · have hkeq : k = st.rounds.length := by
          have hk' := hk
          simp only [List.length_append, List.length_singleton] at hk'
          omega
        subst hkeq
        have hget : (st.rounds ++ [roundEntries env pc ws total st]).get ⟨st.rounds.length, hk⟩ =
            roundEntries env pc ws total st := get_concat_self _ _ _
        rw [hget] at he
        have htake : (st.rounds ++ [roundEntries env pc ws total st]).take st.rounds.length =
            st.rounds := List.take_left ..
        rw [htake]
        obtain ⟨w, hw, rfl⟩ := List.mem_map.mp he
        obtain ⟨hwmem, hwpred⟩ := List.mem_filter.mp hw
        rw [Bool.and_eq_true] at hwpred
        obtain ⟨hwrem, hwdeps⟩ := hwpred
        rw [List.all_eq_true] at hwdeps
        have hdep : ∀ d ∈ depsOf w, ∃ e' ∈ st.rounds.flatten, e'.task.id = d := by
          intro d hd
          have hdmem : d ∈ st.completed := (contains_iff_mem _ _).mp (hwdeps d hd)
          rw [hcomp] at hdmem
          obtain ⟨e', he', heid⟩ := List.mem_map.mp hdmem
          exact ⟨e', he', heid⟩
        refine ⟨hdep, ?_, ?_, rfl, hwmem⟩
        · show (depsOf w).filterMap (fun d => st.resultMap.lookup d) = _
          rw [hmap]
        · show ((depsOf w).filterMap (fun d => st.resultMap.lookup d)).length = (depsOf w).length
          apply filterMap_length_eq
          intro d hd
          obtain ⟨e', he', heid⟩ := hdep d hd
          rw [hmap]
          exact lookup_isSome_of_key _ d
            ⟨(e'.task.id, e'.result),
             List.mem_reverse.mpr (List.mem_map_of_mem _ he'), heid⟩

theorem runParAux_ff_stop (env : OrchEnv) (pc : String) (ws : List WorkerTask)
    (total : Nat) (fuel : Nat) (st : ParState) (h : st.failFast = true) :
    runParAux env pc ws total fuel st = st := by
  cases fuel with
  | zero => rfl
  | succ n => simp [runParAux, h]

theorem runParAux_preserves (env : OrchEnv) (pc : String) (ws : List WorkerTask)
    (total : Nat) :
    ∀ (fuel : Nat) (st : ParState), ParInvariant ws st → RoundsGood pc ws total st.rounds →
      ParInvariant ws (runParAux env pc ws total fuel st) ∧
      RoundsGood pc ws total (runParAux env pc ws total fuel st).rounds := by
  intro fuel
  induction fuel with
  | zero =>
    intro st h1 h2
    exact ⟨h1, h2⟩
  | succ n ih =>
    intro st h1 h2
    unfold runParAux
    by_cases hstop : (st.remaining.isEmpty || st.failFast) = true
    · rw [if_pos hstop]
      exact ⟨h1, h2⟩
    · rw [if_neg hstop]
      obtain ⟨h1', h2'⟩ := parRound_preserves env pc ws total st h1
      have h2'' := h2' h2
      by_cases hd : (parRound env pc ws total st).deadlock = true
      · rw [if_pos hd]
        exact ⟨h1', h2''⟩
      · rw [if_neg hd]
        exact ih _ h1' h2''

theorem initParState_invariant (ws : List WorkerTask) :
    ParInvariant ws (initParState ws) := by
  refine ⟨rfl, rfl, rfl, ?_⟩
  show (ws.map (·.id)).eraseDups =
    ((ws.map (·.id)).eraseDups).filter fun id => !(List.contains [] id)
  exact (List.filter_eq_self.mpr fun a _ => rfl).symm

theorem roundsGood_nil (pc : String) (ws : List WorkerTask) (total : Nat) :
    RoundsGood pc ws total [] := by
  intro k hk
  simp at hk

/-- C5.  In parallel mode, the returned `workerResults` are exactly the
round trace's results flattened in round order, and every scheduled entry
`e` of round `k` satisfies: each declared dependency of its task was
executed in a strictly earlier round (so the dependency's Worker Result
precedes `e`'s in `workerResults`); the injected `depResults` are exactly
the recorded results of the task's declared dependencies — one per
dependency, none of any other prior worker; and the executed task is the
plan task with the context block built from exactly those dependency
results prefixed to its prompt. -/
theorem C5_parallel_dependency_order (env : OrchEnv) (pc : String) (ws : List WorkerTask) :
    (runParFull env pc ws).results =
      ((runParFull env pc ws).rounds.flatten).map ParEntry.result ∧
    ∀ k (hk : k < (runParFull env pc ws).rounds.length),
      ∀ e ∈ (runParFull env pc ws).rounds.get ⟨k, hk⟩,
        (∀ d ∈ depsOf e.task,
          ∃ e' ∈ ((runParFull env pc ws).rounds.take k).flatten, e'.task.id = d) ∧
        e.depResults = (depsOf e.task).filterMap (fun d =>
          ((((runParFull env pc ws).rounds.take k).flatten.map
            fun e' => (e'.task.id, e'.result)).reverse).lookup d) ∧
        e.depResults.length = (depsOf e.task).length ∧
        e.augTask = augmentTask (buildWorkerContextBlock pc e.num ws.length e.depResults) e.task := by
  obtain ⟨hInv, hGood⟩ := runParAux_preserves env pc ws ws.length (ws.length + 1)
    (initParState ws) (initParState_invariant ws) (roundsGood_nil pc ws ws.length)
  refine ⟨hInv.1, ?_⟩
  intro k hk e he
  obtain ⟨p1, p2, p3, p4, _⟩ := hGood k hk e he
  exact ⟨p1, p2, p3, p4⟩


set_option maxRecDepth 8192 in
/-- Witness for C5 at the concrete 4-worker plan `planPar4`: worker `B`
runs in round 2, after its dependency `A`. -/
theorem C5_parallel_dependency_order_witness :
    entryPar4B.task.id = "B" ∧ depsOf entryPar4B.task = ["A"] ∧
    ((∀ d ∈ depsOf entryPar4B.task,
        ∃ e' ∈ (outPar4.rounds.take 1).flatten, e'.task.id = d) ∧
      entryPar4B.depResults = (depsOf entryPar4B.task).filterMap (fun d =>
        (((outPar4.rounds.take 1).flatten.map
          fun e' => (e'.task.id, e'.result)).reverse).lookup d) ∧
      entryPar4B.depResults.length = (depsOf entryPar4B.task).length ∧
      entryPar4B.augTask = augmentTask
        (buildWorkerContextBlock pcPar4 entryPar4B.num planPar4.workers.length
          entryPar4B.depResults) entryPar4B.task) :=
  ⟨by decide, by decide,
   (C5_parallel_dependency_order envPar4 pcPar4 planPar4.workers).2 1 (by decide)
     entryPar4B (by decide)⟩

/-- A non-empty list has `isEmpty = false`. -/
theorem isEmpty_false_of_ne_nil {α : Type} {l : List α} (h : l ≠ []) : l.isEmpty = false := by
  cases l with
  | nil => exact absurd rfl h
  | cons a t => rfl

/-- A list with `isEmpty = false` is non-empty. -/
theorem ne_nil_of_isEmpty_false {α : Type} {l : List α} (h : l.isEmpty = false) : l ≠ [] := by
  cases l with
  | nil => simp at h
  | cons a t => simp

/-- C6 counterexample.  On `planParFF` (order `A, C, B←A`), round 1 runs
`A` (success) and `C` (the only failure).  No worker in the plan depends on
`C` — the dependency lists are `[[], [], [A]]` — yet fail-fast triggers,
because the source's `failedIds` indexing bug collects the id of the first
ready worker `A` instead of the failed `C`; and `B`, which depends only on
the *successful* `A`, is skipped (no second round, only two results).
This refutes both halves of the claim: the trigger is not "some remaining
worker transitively depends on a failed worker", and workers not depending
on any failed worker are skipped. -/
theorem C6_failfast_counterexample :
    outParFF.failFast = true ∧
    outParFF.results.map (fun r => (r.taskId, r.success)) = [("A", true), ("C", false)] ∧
    planParFF.workers.map depsOf = [[], [], ["A"]] ∧
    outParFF.remaining = ["B"] ∧
    outParFF.rounds.length = 1 ∧
    (execute envParFF "t").toOption.map (·.workerResults.length) = some 2 := by
  decide

/-- C6 amended.  After a parallel round with at least one failed result,
fail-fast triggers exactly when some worker still remaining after the batch
*directly* depends on one of the ids of the first `k` ready workers of the
batch in plan order, `k` being the number of failed results (the source's
`failedIds` computation indexes `ready` with positions of the *filtered*
failure list, not the failed workers' own positions); and once the flag is
set the scheduling loop performs no further work, so *all* remaining
workers are skipped, not only dependents. -/
theorem C6_parallel_failfast_amended (env : OrchEnv) (pc : String) (ws : List WorkerTask)
    (total : Nat) (st : ParState)
    (hff : st.failFast = false) (hready : readyOf ws st ≠ []) :
    ((parRound env pc ws total st).failFast = true ↔
      ((roundEntries env pc ws total st).filter fun e => !e.result.success) ≠ [] ∧
      ∃ w ∈ ws,
        (st.remaining.filter fun id =>
          !(((roundEntries env pc ws total st).map fun e => e.task.id).contains id)).contains w.id
            = true ∧
        ∃ d ∈ depsOf w,
          d ∈ ((readyOf ws st).take
            ((roundEntries env pc ws total st).filter fun e => !e.result.success).length).map
              (fun v => v.id)) ∧
    (∀ fuel st', st'.failFast = true → runParAux env pc ws total fuel st' = st') := by
  constructor
  · have hpr : (parRound env pc ws total st).failFast = roundFailFastOf env pc ws total st := by
      unfold parRound
      rw [if_neg (by simp [isEmpty_false_of_ne_nil hready])]
    rw [hpr]
    unfold roundFailFastOf
    by_cases hfc : ((roundEntries env pc ws total st).filter fun e => !e.result.success).length = 0
    · rw [if_pos hfc, hff]
      have hnil : ((roundEntries env pc ws total st).filter fun e => !e.result.success) = [] :=
        List.length_eq_zero.mp hfc
      simp [hnil]
    · rw [if_neg hfc, hff, Bool.false_or]
      constructor
      · intro hb
        rw [Bool.not_eq_true'] at hb
        have hbne := ne_nil_of_isEmpty_false hb
        obtain ⟨w, hw⟩ := List.exists_mem_of_ne_nil _ hbne
        obtain ⟨hwmem, hwpred⟩ := List.mem_filter.mp hw
        rw [Bool.and_eq_true] at hwpred
        obtain ⟨hwrem, hwany⟩ := hwpred
        rw [List.any_eq_true] at hwany
        obtain ⟨d, hd, hdcont⟩ := hwany
        refine ⟨fun hnil => hfc (by rw [hnil]; rfl), w, hwmem, hwrem, d, hd, ?_⟩
        exact (contains_iff_mem _ _).mp hdcont
      · rintro ⟨_, w, hwmem, hwrem, d, hd, hdmem⟩
        have hwblocked : w ∈ ws.filter fun w =>
            (st.remaining.filter fun id =>
              !(((roundEntries env pc ws total st).map fun e => e.task.id).contains id)).contains
              w.id &&
            (depsOf w).any fun d =>
              (((readyOf ws st).take
                ((roundEntries env pc ws total st).filter fun e =>
                  !e.result.success).length).map (·.id)).contains d := by
          refine List.mem_filter.mpr ⟨hwmem, ?_⟩
          rw [Bool.and_eq_true]
          exact ⟨hwrem, List.any_eq_true.mpr ⟨d, hd, (contains_iff_mem _ _).mpr hdmem⟩⟩
        rw [isEmpty_false_of_ne_nil (List.ne_nil_of_mem hwblocked)]
        rfl
  · exact fun fuel st' h => runParAux_ff_stop env pc ws total fuel st' h

/-- Witness for the amended C6 at the `planParFF` scenario's first round. -/
theorem C6_parallel_failfast_amended_witness :
    ((parRound envParFF pcParFF planParFF.workers planParFF.workers.length
        (initParState planParFF.workers)).failFast = true ↔
      ((roundEntries envParFF pcParFF planParFF.workers planParFF.workers.length
        (initParState planParFF.workers)).filter fun e => !e.result.success) ≠ [] ∧
      ∃ w ∈ planParFF.workers,
        ((initParState planParFF.workers).remaining.filter fun id =>
          !(((roundEntries envParFF pcParFF planParFF.workers planParFF.workers.length
            (initParState planParFF.workers)).map fun e => e.task.id).contains id)).contains w.id
            = true ∧
        ∃ d ∈ depsOf w,
          d ∈ ((readyOf planParFF.workers (initParState planParFF.workers)).take
            ((roundEntries envParFF pcParFF planParFF.workers planParFF.workers.length
              (initParState planParFF.workers)).filter fun e =>
                !e.result.success).length).map (fun v => v.id)) ∧
    (∀ fuel st', st'.failFast = true →
      runParAux envParFF pcParFF planParFF.workers planParFF.workers.length fuel st' = st') :=
  C6_parallel_failfast_amended envParFF pcParFF planParFF.workers planParFF.workers.length
    (initParState planParFF.workers) rfl (by decide)

/-- C7 counterexample.  On `planDL` (worker `B` depends on the missing id
`Z`), the second round has no ready workers while `B` remains: the loop
merely breaks (the deadlock is only logged), `execute` still runs the
summary phase and returns a normal summary — here even with
`overallSuccess = true` — rather than aborting with an error fatal to the
orchestration; the summary prompt carries no notice for the not-run
workers. -/
theorem C7_deadlock_counterexample :
    outDL.deadlock = true ∧
    (execute envDL "t").toOption.map (fun s => (s.overallSuccess, s.workerResults.length))
      = some (true, 1) ∧
    outDL.remaining = ["B"] := by
  decide

/-- A run that ends with the deadlock flag set still has unprocessed
workers: the flag is only raised when a round finds no ready worker while
`remaining` is non-empty, and that branch leaves `remaining` untouched. -/
theorem runParAux_deadlock_remaining (env : OrchEnv) (pc : String) (ws : List WorkerTask)
    (total : Nat) :
    ∀ (fuel : Nat) (st : ParState), st.deadlock = false →
      (runParAux env pc ws total fuel st).deadlock = true →
      (runParAux env pc ws total fuel st).remaining ≠ [] := by
  intro fuel
  induction fuel with
  | zero =>
    intro st h0 h1
    rw [show runParAux env pc ws total 0 st = st from rfl] at h1
    rw [h0] at h1
    exact absurd h1 (by simp)
  | succ n ih =>
    intro st h0 h1
    unfold runParAux at h1 ⊢
    by_cases hstop : (st.remaining.isEmpty || st.failFast) = true
    · rw [if_pos hstop] at h1 ⊢
      rw [h0] at h1
      exact absurd h1 (by simp)
    · rw [if_neg hstop] at h1 ⊢
      by_cases hd : (parRound env pc ws total st).deadlock = true
      · rw [if_pos hd] at h1 ⊢
        unfold parRound at hd ⊢
        by_cases hempty : (readyOf ws st).isEmpty = true
        · rw [if_pos hempty] at hd ⊢
          show st.remaining ≠ []
          have hre : st.remaining.isEmpty = false := by
            cases hre : st.remaining.isEmpty
            · rfl
            · exact absurd (by rw [hre]; rfl) hstop
          exact ne_nil_of_isEmpty_false hre
        · rw [if_neg hempty] at hd
          exact absurd (show st.deadlock = true from hd) (by rw [h0]; simp)
      · rw [if_neg hd] at h1 ⊢
        exact ih _ (by simpa using hd) h1

/-- C7 amended.  A round with no ready workers while `remaining` is
non-empty only terminates the scheduling loop (the deadlock is logged, and
the deadlock flag in the trace implies workers are left unprocessed); the
orchestration is not aborted: the remaining workers produce no result
entry, and `execute` still returns a summary whose `workerResults` are the
partial results of the processed rounds (so `overallSuccess` is computed
from those alone and can even be true). -/
theorem C7_deadlock_amended (env : OrchEnv) (pc : String) (ws : List WorkerTask) :
    ((runParFull env pc ws).deadlock = true → (runParFull env pc ws).remaining ≠ []) ∧
    (∀ id ∈ (runParFull env pc ws).remaining,
      ∀ e ∈ (runParFull env pc ws).rounds.flatten, e.task.id ≠ id) ∧
    (∀ (envE : OrchEnv) (t : String) (pr : ClaudeRes) (plan0 : OrchestratorPlan),
      envE.planCall = .ok pr → envE.parsePlanFn pr.result = .ok plan0 →
      plan0.sequential = false →
      ∃ s, execute envE t = .ok s ∧
        s.workerResults = (runParFull envE
          (planContextForWorkers t { plan0 with workers := plan0.workers.take MAX_WORKERS })
          (plan0.workers.take MAX_WORKERS)).results) := by
  refine ⟨?_, ?_, ?_⟩
  · exact runParAux_deadlock_remaining env pc ws ws.length (ws.length + 1)
      (initParState ws) rfl
  · intro id hid e he
    unfold runParFull at hid he
    obtain ⟨hInv, _⟩ := runParAux_preserves env pc ws ws.length (ws.length + 1)
      (initParState ws) (initParState_invariant ws) (roundsGood_nil pc ws ws.length)
    obtain ⟨_, hcomp, _, hrem⟩ := hInv
    rw [hrem] at hid
    obtain ⟨_, hpred⟩ := List.mem_filter.mp hid
    intro heq
    have hmem : id ∈ (runParAux env pc ws ws.length (ws.length + 1) (initParState ws)).completed := by
      rw [hcomp]
      exact List.mem_map.mpr ⟨e, he, heq⟩
    have hcont := (contains_iff_mem _ _).mpr hmem
    rw [hcont] at hpred
    exact absurd hpred (by simp)
  · intro envE t pr plan0 hplan hparse hseq
    unfold execute
    rw [hplan]
    simp only
    rw [hparse]
    simp only [hseq]
    exact ⟨_, rfl, rfl⟩

/-- Witness for the amended C7 at the `planDL` scenario: the deadlocked
run leaves `B` unprocessed with no result entry, and `execute` still
returns a summary with the partial results. -/
theorem C7_deadlock_amended_witness :
    outDL.remaining ≠ [] ∧
    (∀ e ∈ outDL.rounds.flatten, e.task.id ≠ "B") ∧
    (∃ s, execute envDL "t" = .ok s ∧
      s.workerResults = (runParFull envDL
        (planContextForWorkers "t" { planDL with workers := planDL.workers.take MAX_WORKERS })
        (planDL.workers.take MAX_WORKERS)).results) :=
  ⟨(C7_deadlock_amended envDL pcDL planDL.workers).1 (by decide),
   fun e he => (C7_deadlock_amended envDL pcDL planDL.workers).2.1 "B" (by decide) e he,
   (C7_deadlock_amended envDL pcDL planDL.workers).2.2 envDL "t"
     { result := "PLAN", costUsd := none } planDL (by decide) (by decide) rfl⟩

/-- Correctness of `findSub`: a found index decomposes the haystack around
an occurrence of the pattern. -/
theorem findSub_decomp (pat : List Char) :
    ∀ (l : List Char) (i : Nat), findSub l pat = some i →
      l = l.take i ++ pat ++ l.drop (i + pat.length) := by
  intro l
  induction l with
  | nil =>
    intro i h
    unfold findSub at h
    by_cases hp : pat.isEmpty
    · rw [if_pos hp] at h
      obtain rfl : (0 : Nat) = i := by injection h
      rw [List.isEmpty_iff.mp hp]
      rfl
    · rw [if_neg hp] at h
      exact absurd h (by simp)
  | cons a t ih =>
    intro i h
    unfold findSub at h
    by_cases hp : pat.isPrefixOf (a :: t) = true
    · rw [if_pos hp] at h
      obtain rfl : (0 : Nat) = i := by injection h
      obtain ⟨s, hs⟩ := List.isPrefixOf_iff_prefix.mp hp
      rw [List.take_zero, List.nil_append, Nat.zero_add]
      rw [← hs, List.drop_left]
    · rw [if_neg hp] at h
      cases hft : findSub t pat with
      | none =>
        rw [hft] at h
        exact absurd h (by simp)
      | some j =>
        rw [hft] at h
        obtain rfl : j + 1 = i := by injection h
        have := ih j hft
        calc a :: t = a :: (t.take j ++ pat ++ t.drop (j + pat.length)) := by rw [← this]
          _ = (a :: t).take (j + 1) ++ pat ++ (a :: t).drop (j + 1 + pat.length) := by
              rw [List.take_succ_cons]
              have : j + 1 + pat.length = (j + pat.length) + 1 := by omega
              rw [this, List.drop_succ_cons]
              simp

/-- Correctness of `matchBlock`: a match decomposes the text as the part
before the block, the opening delimiter, the captured inner text, the
closing delimiter, and the part after. -/
theorem matchBlock_decomp (openTag closeTag text pre inner post : List Char)
    (h : matchBlock openTag closeTag text = some (pre, inner, post)) :
    text = pre ++ openTag ++ inner ++ closeTag ++ post := by
  unfold matchBlock at h
  cases hf : findSub text openTag with
  | none =>
    rw [hf] at h
    exact absurd h (by simp)
  | some i =>
    rw [hf] at h
    simp only at h
    cases hg : findSub (text.drop (i + openTag.length)) closeTag with
    | none =>
      rw [hg] at h
      exact absurd h (by simp)
    | some j =>
      rw [hg] at h
      simp only [Option.some.injEq, Prod.mk.injEq] at h
      obtain ⟨rfl, rfl, rfl⟩ := h
      have e1 := findSub_decomp openTag text i hf
      have e2 := findSub_decomp closeTag (text.drop (i + openTag.length)) j hg
      calc text = text.take i ++ openTag ++ text.drop (i + openTag.length) := e1
        _ = text.take i ++ openTag ++
            ((text.drop (i + openTag.length)).take j ++ closeTag ++
             (text.drop (i + openTag.length)).drop (j + closeTag.length)) := by rw [← e2]
        _ = _ := by simp [List.append_assoc]

/-- C10 amended.  When the first action block of the reply (the earliest
delimiter match) holds JSON parsing to `type = "work_request"` with a
non-empty `task`, parsing returns exactly that Work Request (so its
`task`/`context`/`urgency` equal the JSON contents), and the reply
decomposes as `pre ++ open ++ inner ++ close ++ post` around that block.
The returned chat text is the reply with the first action block removed,
then the first memory block removed, trimmed — so a second block's
delimiters, if present, survive — with the placeholder `Working on it...`
substituted when the result is empty.  A malformed action JSON is ignored
(no action), and the chat text is still returned by the same formula. -/
theorem C10_chat_amended (jp : String → Option WorkReq) (text : String) :
    (∀ pre inner post wr,
        matchBlock actionOpen actionClose text.data = some (pre, inner, post) →
        jp (String.mk (trimChars inner)) = some wr →
        wr.type = "work_request" → wr.task ≠ "" →
        (parseChatResponse jp text).action = some wr ∧
        text.data = pre ++ actionOpen ++ inner ++ actionClose ++ post) ∧
    ((parseChatResponse jp text).chatText =
      (if String.mk (trimChars (stripFirstBlock memOpen memClose
            (stripFirstBlock actionOpen actionClose text.data))) == "" then "Working on it..."
       else String.mk (trimChars (stripFirstBlock memOpen memClose
            (stripFirstBlock actionOpen actionClose text.data))))) ∧
    (∀ pre inner post,
        matchBlock actionOpen actionClose text.data = some (pre, inner, post) →
        jp (String.mk (trimChars inner)) = none →
        (parseChatResponse jp text).action = none) := by
  refine ⟨?_, rfl, ?_⟩
  · intro pre inner post wr hmatch hjp htype htask
    constructor
    · unfold parseChatResponse
      simp only [hmatch, hjp]
      rw [if_pos (show (wr.type == "work_request" && wr.task != "") = true by
        simp [htype, htask])]
    · exact matchBlock_decomp actionOpen actionClose text.data pre inner post hmatch
  · intro pre inner post hmatch hjp
    unfold parseChatResponse
    simp only [hmatch, hjp]

/-- Witness for the amended C10 at a reply with exactly one valid action
block and one memory block. -/
theorem C10_chat_amended_witness :
    ((parseChatResponse jpChat textOneBlock).action = some wrChat ∧
     textOneBlock.data = "".data ++ actionOpen ++ "J1".data ++ actionClose ++
       " ok <TIFFBOT_MEMORY>note</TIFFBOT_MEMORY>".data) :=
  (C10_chat_amended jpChat textOneBlock).1 "".data "J1".data
    " ok <TIFFBOT_MEMORY>note</TIFFBOT_MEMORY>".data wrChat
    (by decide) (by decide) (by decide) (by decide)
